import Mathlib

/- Shallow embedding of flagpolejs/json-validator (src/index.ts): a recursive
matching engine that checks a JSON-like document against a hand-rolled schema
node and accumulates validation errors.

JSON-like runtime values. JSON numbers are modelled as integers; the claims
under study involve no fractional values. JavaScript values outside the JSON
universe (functions, symbols) are not modelled; in the source they fall into
the final "string" fallback of getType. -/
inductive JsValue where
  | undefined : JsValue
  | null : JsValue
  | bool : Bool → JsValue
  | num : Int → JsValue
  | str : String → JsValue
  | arr : List JsValue → JsValue
  | obj : List (String × JsValue) → JsValue

/-- getType from src/index.ts, checking undefined → null → array → object →
boolean → number with "string" as the residual fallback. On this value type
each constructor lands in exactly one branch, so the check order collapses to
a case split. -/
def getType : JsValue → String
  | .undefined => "undefined"
  | .null => "null"
  | .arr _ => "array"
  | .obj _ => "object"
  | .bool _ => "boolean"
  | .num _ => "number"
  | .str _ => "string"

/-- JavaScript property read on an object's entry list: first matching key,
else undefined. -/
def getFieldList : List (String × JsValue) → String → JsValue
  | [], _ => .undefined
  | (k', v) :: rest, k => if k' == k then v else getFieldList rest k

/-- Property read schema.foo as used by the validator (the receiver there
always classifies as object); a read on a non-object yields undefined. -/
def JsValue.getField : JsValue → String → JsValue
  | .obj fields, k => getFieldList fields k
  | _, _ => .undefined

/-- JavaScript truthiness of the values modelled here, used for the
schema.optional test in _isValid. -/
def JsValue.truthy : JsValue → Bool
  | .undefined => false
  | .null => false
  | .bool b => b
  | .num n => n != 0
  | .str s => s != ""
  | .arr _ => true
  | .obj _ => true

/-- Whether a value is the undefined value: typeof v === "undefined". -/
def JsValue.isUndefined : JsValue → Bool
  | .undefined => true
  | _ => false

/-- Whether a value is null or undefined (these become empty strings under
Array.prototype.join). -/
def isNullish : JsValue → Bool
  | .undefined => true
  | .null => true
  | _ => false

/-- JavaScript strict equality as used by Array.prototype.indexOf in the enum
and type checks. Primitives compare by value; distinct array/object literals
compare by reference, and a document value is never reference-identical to a
value stored inside the schema, so composites compare unequal here. -/
def jsStrictEq : JsValue → JsValue → Bool
  | .undefined, .undefined => true
  | .null, .null => true
  | .bool a, .bool b => a == b
  | .num a, .num b => a == b
  | .str a, .str b => a == b
  | _, _ => false

/-- JavaScript String(v) on the modelled values: template literals and
String(...) in the validator's error messages use this conversion. Arrays
convert as join(",") with null/undefined elements becoming empty strings;
plain objects convert to "[object Object]". -/
def jsString : JsValue → String
  | .undefined => "undefined"
  | .null => "null"
  | .bool b => if b then "true" else "false"
  | .num n => toString n
  | .str s => s
  | .obj _ => "[object Object]"
  | .arr xs => String.intercalate "," (xs.attach.map fun x =>
      if isNullish x.1 then "" else jsString x.1)
termination_by v => sizeOf v
decreasing_by
  have h := List.sizeOf_lt_of_mem x.2
  simp only [JsValue.arr.sizeOf_spec]
  omega

/-- Array.prototype.join(sep): null/undefined elements become empty strings,
other elements convert via String(v). -/
def jsJoin (sep : String) (xs : List JsValue) : String :=
  String.intercalate sep (xs.map fun x => if isNullish x then "" else jsString x)

/-- The fields of ValidationError that the validator actually populates: every
_logError call site sets exactly keyword, instancePath and message. -/
structure ValidationError where
  keyword : String
  instancePath : String
  message : String
deriving DecidableEq

/-- _matchesType from src/index.ts. A string schema value demands that the
document's classified type equal that string; an array schema value demands
membership (indexOf uses strict equality, so only string entries can match a
type tag); any other schema value, undefined included, passes. Note that the
single-string branch interpolates schemaType — the classified type of the
schema value, which is always the literal "string" in that branch — into the
message, not the schema value itself. -/
def _matchesType (schema document : JsValue) (path : String) :
    Bool × List ValidationError :=
  let docType := getType document
  match schema with
  | .str s =>
      if docType != s then
        (false, [{ keyword := "type", instancePath := path,
                   message := "must be string, but it was " ++ docType }])
      else (true, [])
  | .arr allowedTypes =>
      if allowedTypes.any fun v => jsStrictEq v (.str docType) then (true, [])
      else
        (false, [{ keyword := "type", instancePath := path,
                   message := "must be " ++ jsJoin " | " allowedTypes ++
                     ", but it was " ++ docType }])
  | _ => (true, [])

/-- _matchesEnum: applies only when the enum field classifies as array;
membership is by strict equality (indexOf). -/
def _matchesEnum (schema document : JsValue) (path : String) :
    Bool × List ValidationError :=
  match schema with
  | .arr vals =>
      if vals.any fun v => jsStrictEq v document then (true, [])
      else
        (false, [{ keyword := "value", instancePath := path,
                   message := "value must be in enum " ++ jsJoin ", " vals ++
                     ", but it was " ++ jsString document }])
  | _ => (true, [])

/-- _matchesPattern: regexTest models new RegExp(schema).test(s), the one
platform primitive the engine calls. The check is skipped when the schema
value (the matches field of the caller) is undefined; note the two spaces in
the message, present in the source template. -/
def _matchesPattern (regexTest : JsValue → String → Bool)
    (schema document : JsValue) (path : String) :
    Bool × List ValidationError :=
  match schema with
  | .undefined => (true, [])
  | s =>
      if regexTest s (jsString document) then (true, [])
      else
        (false, [{ keyword := "value", instancePath := path,
                   message := "value " ++ jsString document ++
                     " did not match  " ++ jsString s }])

/-- The Object.keys(document).every(key => _matchesType(schema, document[key],
path.key)) loop from the string/array branch of _matchesProperties. JavaScript
objects have unique keys, so iterating entries coincides with iterating keys;
every short-circuits at the first failing key, keeping earlier logs. -/
def _propsTypeLoop (schema : JsValue) (docFields : List (String × JsValue))
    (path : String) : Bool × List ValidationError :=
  match docFields with
  | [] => (true, [])
  | (key, v) :: rest =>
      let r := _matchesType schema v (path ++ "." ++ key)
      if r.1 then
        let r2 := _propsTypeLoop schema rest path
        (r2.1, r.2 ++ r2.2)
      else (false, r.2)

/-- Size bound used for termination: a field read never exceeds the entry
list it reads from. -/
lemma sizeOf_getFieldList_le (fields : List (String × JsValue)) (k : String) :
    sizeOf (getFieldList fields k) ≤ sizeOf fields := by
  induction fields with
  | nil => simp [getFieldList]
  | cons kv rest ih =>
      obtain ⟨k', v⟩ := kv
      simp only [getFieldList]
      split
      · simp only [List.cons.sizeOf_spec, Prod.mk.sizeOf_spec]
        omega
      · refine le_trans ih ?_
        simp only [List.cons.sizeOf_spec]
        omega

/-- Size bound used for termination: reading a field of any value yields
something no larger than the value. -/
lemma sizeOf_getField_le (d : JsValue) (k : String) :
    sizeOf (JsValue.getField d k) ≤ sizeOf d := by
  cases d with
  | obj fields =>
      have h := sizeOf_getFieldList_le fields k
      simp only [JsValue.getField, JsValue.obj.sizeOf_spec]
      omega
  | undefined =>
      simp only [JsValue.getField, JsValue.undefined.sizeOf_spec]
      omega
  | null =>
      simp only [JsValue.getField, JsValue.undefined.sizeOf_spec,
        JsValue.null.sizeOf_spec]
      omega
  | bool b =>
      simp only [JsValue.getField, JsValue.undefined.sizeOf_spec,
        JsValue.bool.sizeOf_spec]
      omega
  | num n =>
      simp only [JsValue.getField, JsValue.undefined.sizeOf_spec,
        JsValue.num.sizeOf_spec]
      omega
  | str s =>
      simp only [JsValue.getField, JsValue.undefined.sizeOf_spec,
        JsValue.str.sizeOf_spec]
      omega
  | arr xs =>
      simp only [JsValue.getField, JsValue.undefined.sizeOf_spec,
        JsValue.arr.sizeOf_spec]
      omega

mutual
/-- _isValid from src/index.ts: dispatch on the schema node's own classified
type. A string or array schema node is a direct type specifier; an object
node runs type → enum → pattern → items → properties, returning false right
after each failing check, except that a failed type check does not return
when schema.optional is truthy and the document is undefined (the error
already logged by _matchesType stays in the accumulated list); any other
node shape falls through to the final return true. -/
def _isValid (regexTest : JsValue → String → Bool)
    (schema document : JsValue) (path : String) :
    Bool × List ValidationError :=
  match schema with
  | .str _ | .arr _ => _matchesType schema document path
  | .obj fields =>
      let t := _matchesType ((JsValue.obj fields).getField "type") document path
      if !t.1 && (!((JsValue.obj fields).getField "optional").truthy
          || !document.isUndefined) then
        (false, t.2)
      else
        let e := _matchesEnum ((JsValue.obj fields).getField "enum") document path
        if !e.1 then (false, t.2 ++ e.2)
        else
          let pa := _matchesPattern regexTest
            ((JsValue.obj fields).getField "matches") document path
          if !pa.1 then (false, t.2 ++ e.2 ++ pa.2)
          else
            let it := _matchesItems regexTest
              ((JsValue.obj fields).getField "items") document path
            if !it.1 then (false, t.2 ++ e.2 ++ pa.2 ++ it.2)
            else
              let pr := _matchesProperties regexTest
                ((JsValue.obj fields).getField "properties") document path
              (pr.1, t.2 ++ e.2 ++ pa.2 ++ it.2 ++ pr.2)
  | _ => (true, [])
termination_by 4 * sizeOf schema + sizeOf document + 0
decreasing_by
  · have h := sizeOf_getFieldList_le fields "items"
    simp only [JsValue.getField, JsValue.obj.sizeOf_spec]
    omega
  · have h := sizeOf_getFieldList_le fields "properties"
    simp only [JsValue.getField, JsValue.obj.sizeOf_spec]
    omega

/-- _matchesItems: skipped when the items value is undefined; a non-array
document logs a schema-keyword error at the real path and fails; otherwise
the elements are scanned in order. -/
def _matchesItems (regexTest : JsValue → String → Bool)
    (schema document : JsValue) (path : String) :
    Bool × List ValidationError :=
  if schema.isUndefined then (true, [])
  else
    match document with
    | .arr items => _itemsLoop regexTest schema items path 0
    | _ =>
        (false, [{ keyword := "schema", instancePath := path,
                   message := "must be an array, but schema defines items." }])
termination_by 4 * sizeOf schema + sizeOf document + 2
decreasing_by
  simp only [JsValue.arr.sizeOf_spec]
  omega

/-- The document.every((subItem, index) => ...) loop of _matchesItems: a
string/array items value type-checks each element at path[index], an object
items value recurses through _isValid there, anything else accepts the
element; every short-circuits at the first failing element, keeping the
logs of earlier elements. -/
def _itemsLoop (regexTest : JsValue → String → Bool) (schema : JsValue)
    (items : List JsValue) (path : String) (index : Nat) :
    Bool × List ValidationError :=
  match items with
  | [] => (true, [])
  | subItem :: rest =>
      let r :=
        match schema with
        | .str _ | .arr _ =>
            _matchesType schema subItem (path ++ "[" ++ toString index ++ "]")
        | .obj fields =>
            _isValid regexTest (JsValue.obj fields) subItem
              (path ++ "[" ++ toString index ++ "]")
        | _ => (true, [])
      if r.1 then
        let r2 := _itemsLoop regexTest schema rest path (index + 1)
        (r2.1, r.2 ++ r2.2)
      else (false, r.2)
termination_by 4 * sizeOf schema + sizeOf items + 1
decreasing_by
  · simp only [List.cons.sizeOf_spec]
    omega
  · simp only [List.cons.sizeOf_spec]
    omega

/-- _matchesProperties: skipped when the properties value is undefined; a
non-object document logs a schema-keyword error whose instancePath is the
literal text "path" and fails; a string/array properties value type-checks
every document value; an object properties value validates every schema key
against document[key]. -/
def _matchesProperties (regexTest : JsValue → String → Bool)
    (schema document : JsValue) (path : String) :
    Bool × List ValidationError :=
  match schema with
  | .undefined => (true, [])
  | .str _ | .arr _ =>
      match document with
      | .obj docFields => _propsTypeLoop schema docFields path
      | _ =>
          (false, [{ keyword := "schema", instancePath := "path",
                     message := "must be an object, but schema defines properties." }])
  | .obj schemaFields =>
      match document with
      | .obj docFields =>
          _propsLoop regexTest schemaFields (JsValue.obj docFields) path
      | _ =>
          (false, [{ keyword := "schema", instancePath := "path",
                     message := "must be an object, but schema defines properties." }])
  | _ =>
      match document with
      | .obj _ => (true, [])
      | _ =>
          (false, [{ keyword := "schema", instancePath := "path",
                     message := "must be an object, but schema defines properties." }])
termination_by 4 * sizeOf schema + sizeOf document + 2
decreasing_by
  simp only [JsValue.obj.sizeOf_spec]
  omega

/-- The Object.keys(schema).every(key => _isValid(schema[key], document[key],
path.key)) loop of _matchesProperties (unique keys, so entry values coincide
with schema[key]); every short-circuits at the first failing key, keeping
the logs of earlier keys. -/
def _propsLoop (regexTest : JsValue → String → Bool)
    (schemaFields : List (String × JsValue)) (document : JsValue)
    (path : String) : Bool × List ValidationError :=
  match schemaFields with
  | [] => (true, [])
  | (key, subSchema) :: rest =>
      let r := _isValid regexTest subSchema (document.getField key)
        (path ++ "." ++ key)
      if r.1 then
        let r2 := _propsLoop regexTest rest document path
        (r2.1, r.2 ++ r2.2)
      else (false, r.2)
termination_by 4 * sizeOf schemaFields + sizeOf document + 1
decreasing_by
  · have h := sizeOf_getField_le document key
    simp only [List.cons.sizeOf_spec, Prod.mk.sizeOf_spec]
    omega
  · simp only [List.cons.sizeOf_spec]
    omega
end

/-- The validator instance state: the _errors and _schema fields of class
JsonValidator. -/
structure JsonValidator where
  _errors : List ValidationError
  _schema : JsValue

/-- The constructor for a schema given as a structured node; _errors starts
empty. The JSON-string form accepted by compile delegates to the platform
JSON.parse (throwing on malformed input) and is outside this model. -/
def mkValidator (schema : JsValue) : JsonValidator :=
  { _errors := [], _schema := schema }

/-- validate(root): reset the error collection, run _isValid from path "$",
return the instance. -/
def JsonValidator.validate (regexTest : JsValue → String → Bool)
    (v : JsonValidator) (root : JsValue) : JsonValidator :=
  { v with _errors := (_isValid regexTest v._schema root "$").2 }

/-- The isValid getter: errors.length === 0. -/
def JsonValidator.isValid (v : JsonValidator) : Bool :=
  v._errors.length == 0

/-- The errors getter. -/
def JsonValidator.errors (v : JsonValidator) : List ValidationError :=
  v._errors

/-- The static convenience entry point JsonValidator.validate(schema,
document): construct, validate, return the validator instance. -/
def validateDoc (regexTest : JsValue → String → Bool)
    (schema document : JsValue) : JsonValidator :=
  JsonValidator.validate regexTest (mkValidator schema) document

/-- A concrete regular-expression oracle that accepts everything, used to
instantiate theorems whose statements hold for every oracle. -/
def rtAlways : JsValue → String → Bool := fun _ _ => true

/-- Whether the character list n occurs at the start of h. -/
def chStarts : List Char → List Char → Bool
  | [], _ => true
  | _ :: _, [] => false
  | a :: n, b :: h => a == b && chStarts n h

/-- Whether the character list n occurs contiguously anywhere in h. -/
def chInside (n : List Char) : List Char → Bool
  | [] => chStarts n []
  | h@(_ :: t) => chStarts n h || chInside n t

/-- Whether needle occurs as a contiguous substring of hay. -/
def strHas (hay needle : String) : Bool :=
  chInside needle.toList hay.toList

/-- isUndefined recognises exactly the undefined value. -/
lemma isUndefined_iff (d : JsValue) : d.isUndefined = true ↔ d = .undefined := by
  cases d <;> simp [JsValue.isUndefined]

/-- A passing type check logs nothing. -/
lemma matchesType_true_nil (s d : JsValue) (p : String)
    (h : (_matchesType s d p).1 = true) : (_matchesType s d p).2 = [] := by
  cases s with
  | str t =>
      by_cases hc : (getType d != t) = true
      · simp [_matchesType, hc] at h
      · simp [_matchesType, hc]
  | arr l =>
      by_cases hc : (l.any fun v => jsStrictEq v (.str (getType d))) = true
      · simp [_matchesType, hc]
      · simp [_matchesType, hc] at h
  | undefined => simp [_matchesType]
  | null => simp [_matchesType]
  | bool b => simp [_matchesType]
  | num n => simp [_matchesType]
  | obj fields => simp [_matchesType]

/-- The type check logs nothing or a single type-keyword record at its path. -/
lemma matchesType_shape (s d : JsValue) (p : String) :
    (_matchesType s d p).2 = [] ∨
    ∃ m, (_matchesType s d p).2 =
      [{ keyword := "type", instancePath := p, message := m }] := by
  cases s with
  | str t =>
      by_cases hc : (getType d != t) = true
      · exact Or.inr ⟨"must be string, but it was " ++ getType d,
          by simp [_matchesType, hc]⟩
      · exact Or.inl (by simp [_matchesType, hc])
  | arr l =>
      by_cases hc : (l.any fun v => jsStrictEq v (.str (getType d))) = true
      · exact Or.inl (by simp [_matchesType, hc])
      · exact Or.inr ⟨"must be " ++ jsJoin " | " l ++ ", but it was " ++ getType d,
          by simp [_matchesType, hc]⟩
  | undefined => exact Or.inl (by simp [_matchesType])
  | null => exact Or.inl (by simp [_matchesType])
  | bool b => exact Or.inl (by simp [_matchesType])
  | num n => exact Or.inl (by simp [_matchesType])
  | obj fields => exact Or.inl (by simp [_matchesType])

/-- Every record logged by the type check carries the path it was called
with. -/
lemma matchesType_mem_path (s d : JsValue) (p : String) :
    ∀ e ∈ (_matchesType s d p).2, e.instancePath = p := by
  intro e he
  rcases matchesType_shape s d p with h | ⟨m, h⟩
  · simp [h] at he
  · rw [h] at he
    simp at he
    rw [he]

/-- A passing enum check logs nothing. -/
lemma matchesEnum_true_nil (s d : JsValue) (p : String)
    (h : (_matchesEnum s d p).1 = true) : (_matchesEnum s d p).2 = [] := by
  cases s with
  | arr vals =>
      by_cases hc : (vals.any fun v => jsStrictEq v d) = true
      · simp [_matchesEnum, hc]
      · simp [_matchesEnum, hc] at h
  | undefined => simp [_matchesEnum]
  | null => simp [_matchesEnum]
  | bool b => simp [_matchesEnum]
  | num n => simp [_matchesEnum]
  | str t => simp [_matchesEnum]
  | obj fields => simp [_matchesEnum]

/-- The enum check logs nothing or a single value-keyword record at its path. -/
lemma matchesEnum_shape (s d : JsValue) (p : String) :
    (_matchesEnum s d p).2 = [] ∨
    ∃ m, (_matchesEnum s d p).2 =
      [{ keyword := "value", instancePath := p, message := m }] := by
  cases s with
  | arr vals =>
      by_cases hc : (vals.any fun v => jsStrictEq v d) = true
      · exact Or.inl (by simp [_matchesEnum, hc])
      · exact Or.inr ⟨"value must be in enum " ++ jsJoin ", " vals ++
          ", but it was " ++ jsString d, by simp [_matchesEnum, hc]⟩
  | undefined => exact Or.inl (by simp [_matchesEnum])
  | null => exact Or.inl (by simp [_matchesEnum])
  | bool b => exact Or.inl (by simp [_matchesEnum])
  | num n => exact Or.inl (by simp [_matchesEnum])
  | str t => exact Or.inl (by simp [_matchesEnum])
  | obj fields => exact Or.inl (by simp [_matchesEnum])

/-- Every record logged by the enum check carries the path it was called
with. -/
lemma matchesEnum_mem_path (s d : JsValue) (p : String) :
    ∀ e ∈ (_matchesEnum s d p).2, e.instancePath = p := by
  intro e he
  rcases matchesEnum_shape s d p with h | ⟨m, h⟩
  · simp [h] at he
  · rw [h] at he
    simp at he
    rw [he]

/-- A passing pattern check logs nothing. -/
lemma matchesPattern_true_nil (rt : JsValue → String → Bool) (s d : JsValue)
    (p : String) (h : (_matchesPattern rt s d p).1 = true) :
    (_matchesPattern rt s d p).2 = [] := by
  cases s with
  | undefined => simp [_matchesPattern]
  | null =>
      by_cases hc : rt .null (jsString d) = true
      · simp [_matchesPattern, hc]
      · simp [_matchesPattern, hc] at h
  | bool b =>
      by_cases hc : rt (.bool b) (jsString d) = true
      · simp [_matchesPattern, hc]
      · simp [_matchesPattern, hc] at h
  | num n =>
      by_cases hc : rt (.num n) (jsString d) = true
      · simp [_matchesPattern, hc]
      · simp [_matchesPattern, hc] at h
  | str t =>
      by_cases hc : rt (.str t) (jsString d) = true
      · simp [_matchesPattern, hc]
      · simp [_matchesPattern, hc] at h
  | arr l =>
      by_cases hc : rt (.arr l) (jsString d) = true
      · simp [_matchesPattern, hc]
      · simp [_matchesPattern, hc] at h
  | obj fields =>
      by_cases hc : rt (.obj fields) (jsString d) = true
      · simp [_matchesPattern, hc]
      · simp [_matchesPattern, hc] at h

/-- The pattern check logs nothing or a single value-keyword record at its
path. -/
lemma matchesPattern_shape (rt : JsValue → String → Bool) (s d : JsValue)
    (p : String) :
    (_matchesPattern rt s d p).2 = [] ∨
    ∃ m, (_matchesPattern rt s d p).2 =
      [{ keyword := "value", instancePath := p, message := m }] := by
  cases s with
  | undefined => exact Or.inl (by simp [_matchesPattern])
  | null =>
      by_cases hc : rt .null (jsString d) = true
      · exact Or.inl (by simp [_matchesPattern, hc])
      · exact Or.inr ⟨"value " ++ jsString d ++ " did not match  " ++
          jsString .null, by simp [_matchesPattern, hc]⟩
  | bool b =>
      by_cases hc : rt (.bool b) (jsString d) = true
      · exact Or.inl (by simp [_matchesPattern, hc])
      · exact Or.inr ⟨"value " ++ jsString d ++ " did not match  " ++
          jsString (.bool b), by simp [_matchesPattern, hc]⟩
  | num n =>
      by_cases hc : rt (.num n) (jsString d) = true
      · exact Or.inl (by simp [_matchesPattern, hc])
      · exact Or.inr ⟨"value " ++ jsString d ++ " did not match  " ++
          jsString (.num n), by simp [_matchesPattern, hc]⟩
  | str t =>
      by_cases hc : rt (.str t) (jsString d) = true
      · exact Or.inl (by simp [_matchesPattern, hc])
      · exact Or.inr ⟨"value " ++ jsString d ++ " did not match  " ++
          jsString (.str t), by simp [_matchesPattern, hc]⟩
  | arr l =>
      by_cases hc : rt (.arr l) (jsString d) = true
      · exact Or.inl (by simp [_matchesPattern, hc])
      · exact Or.inr ⟨"value " ++ jsString d ++ " did not match  " ++
          jsString (.arr l), by simp [_matchesPattern, hc]⟩
  | obj fields =>
      by_cases hc : rt (.obj fields) (jsString d) = true
      · exact Or.inl (by simp [_matchesPattern, hc])
      · exact Or.inr ⟨"value " ++ jsString d ++ " did not match  " ++
          jsString (.obj fields), by simp [_matchesPattern, hc]⟩

/-- Every record logged by the pattern check carries the path it was called
with. -/
lemma matchesPattern_mem_path (rt : JsValue → String → Bool) (s d : JsValue)
    (p : String) : ∀ e ∈ (_matchesPattern rt s d p).2, e.instancePath = p := by
  intro e he
  rcases matchesPattern_shape rt s d p with h | ⟨m, h⟩
  · simp [h] at he
  · rw [h] at he
    simp at he
    rw [he]

lemma dot_len : ("." : String).length = 1 := rfl

lemma lb_len : ("[" : String).length = 1 := rfl

/-- Appending ".key" to a path strictly lengthens it. -/
lemma path_dot_lt (p key : String) : p.length < (p ++ "." ++ key).length := by
  simp [String.length_append, dot_len]
  omega

/-- Appending "[index]" to a path strictly lengthens it. -/
lemma path_idx_lt (p : String) (i : Nat) :
    p.length < (p ++ "[" ++ toString i ++ "]").length := by
  simp [String.length_append, lb_len]
  omega

/-- Every record logged by the per-key type loop of the properties check lies
strictly below the node's path. -/
lemma propsTypeLoop_mem (s : JsValue) (df : List (String × JsValue))
    (p : String) :
    ∀ e ∈ (_propsTypeLoop s df p).2, p.length < e.instancePath.length := by
  induction df with
  | nil => intro e he; simp [_propsTypeLoop] at he
  | cons kv rest ih =>
      obtain ⟨key, v⟩ := kv
      intro e he
      by_cases hr : (_matchesType s v (p ++ "." ++ key)).1 = true
      · simp only [_propsTypeLoop, hr, if_true] at he
        rcases List.mem_append.mp he with h1 | h2
        · rw [matchesType_mem_path s v (p ++ "." ++ key) e h1]
          exact path_dot_lt p key
        · exact ih e h2
      · simp only [Bool.not_eq_true] at hr
        simp only [_propsTypeLoop, hr, Bool.false_eq_true, if_false] at he
        rw [matchesType_mem_path s v (p ++ "." ++ key) e he]
        exact path_dot_lt p key

/-- With a defined properties value and a document that does not classify as
object, the properties check fails with exactly the hardcoded guard record. -/
lemma props_guard_eq (rt : JsValue → String → Bool) (s d : JsValue)
    (p : String) (hs : getType s ≠ "undefined") (hd : getType d ≠ "object") :
    _matchesProperties rt s d p =
      (false, [{ keyword := "schema", instancePath := "path",
                 message := "must be an object, but schema defines properties." }]) := by
  cases s <;>
    first
    | exact absurd rfl hs
    | (cases d <;> first | exact absurd rfl hd | simp [_matchesProperties])

/-- Shape of the descriptor branch of _isValid when the type check's failure
is not forgiven: it returns false with just the type check's log. -/
lemma isValid_obj_stop_type (rt : JsValue → String → Bool)
    (fields : List (String × JsValue)) (d : JsValue) (p : String)
    (h : (!(_matchesType ((JsValue.obj fields).getField "type") d p).1 &&
          (!((JsValue.obj fields).getField "optional").truthy || !d.isUndefined)) = true) :
    _isValid rt (.obj fields) d p =
      (false, (_matchesType ((JsValue.obj fields).getField "type") d p).2) := by
  simp only [_isValid, h, if_true]

/-- Shape of the descriptor branch when the enum check fails: false with the
type log followed by the enum log. -/
lemma isValid_obj_stop_enum (rt : JsValue → String → Bool)
    (fields : List (String × JsValue)) (d : JsValue) (p : String)
    (h : (!(_matchesType ((JsValue.obj fields).getField "type") d p).1 &&
          (!((JsValue.obj fields).getField "optional").truthy || !d.isUndefined)) = false)
    (h2 : (_matchesEnum ((JsValue.obj fields).getField "enum") d p).1 = false) :
    _isValid rt (.obj fields) d p =
      (false, (_matchesType ((JsValue.obj fields).getField "type") d p).2 ++
              (_matchesEnum ((JsValue.obj fields).getField "enum") d p).2) := by
  simp only [_isValid, h, h2, Bool.false_eq_true, if_false, Bool.not_false,
    if_true]

/-- Shape of the descriptor branch when the pattern check fails. -/
lemma isValid_obj_stop_pattern (rt : JsValue → String → Bool)
    (fields : List (String × JsValue)) (d : JsValue) (p : String)
    (h : (!(_matchesType ((JsValue.obj fields).getField "type") d p).1 &&
          (!((JsValue.obj fields).getField "optional").truthy || !d.isUndefined)) = false)
    (h2 : (_matchesEnum ((JsValue.obj fields).getField "enum") d p).1 = true)
    (h3 : (_matchesPattern rt ((JsValue.obj fields).getField "matches") d p).1 = false) :
    _isValid rt (.obj fields) d p =
      (false, (_matchesType ((JsValue.obj fields).getField "type") d p).2 ++
              (_matchesEnum ((JsValue.obj fields).getField "enum") d p).2 ++
              (_matchesPattern rt ((JsValue.obj fields).getField "matches") d p).2) := by
  simp only [_isValid, h, h2, h3, Bool.false_eq_true, if_false, Bool.not_false,
    Bool.not_true, if_true]

/-- Shape of the descriptor branch when the items check fails. -/
lemma isValid_obj_stop_items (rt : JsValue → String → Bool)
    (fields : List (String × JsValue)) (d : JsValue) (p : String)
    (h : (!(_matchesType ((JsValue.obj fields).getField "type") d p).1 &&
          (!((JsValue.obj fields).getField "optional").truthy || !d.isUndefined)) = false)
    (h2 : (_matchesEnum ((JsValue.obj fields).getField "enum") d p).1 = true)
    (h3 : (_matchesPattern rt ((JsValue.obj fields).getField "matches") d p).1 = true)
    (h4 : (_matchesItems rt ((JsValue.obj fields).getField "items") d p).1 = false) :
    _isValid rt (.obj fields) d p =
      (false, (_matchesType ((JsValue.obj fields).getField "type") d p).2 ++
              (_matchesEnum ((JsValue.obj fields).getField "enum") d p).2 ++
              (_matchesPattern rt ((JsValue.obj fields).getField "matches") d p).2 ++
              (_matchesItems rt ((JsValue.obj fields).getField "items") d p).2) := by
  simp only [_isValid, h, h2, h3, h4, Bool.false_eq_true, if_false,
    Bool.not_false, Bool.not_true, if_true]

/-- Shape of the descriptor branch when every stopping check passes: the
result is the properties check's verdict with all accumulated logs. -/
lemma isValid_obj_final (rt : JsValue → String → Bool)
    (fields : List (String × JsValue)) (d : JsValue) (p : String)
    (h : (!(_matchesType ((JsValue.obj fields).getField "type") d p).1 &&
          (!((JsValue.obj fields).getField "optional").truthy || !d.isUndefined)) = false)
    (h2 : (_matchesEnum ((JsValue.obj fields).getField "enum") d p).1 = true)
    (h3 : (_matchesPattern rt ((JsValue.obj fields).getField "matches") d p).1 = true)
    (h4 : (_matchesItems rt ((JsValue.obj fields).getField "items") d p).1 = true) :
    _isValid rt (.obj fields) d p =
      ((_matchesProperties rt ((JsValue.obj fields).getField "properties") d p).1,
       (_matchesType ((JsValue.obj fields).getField "type") d p).2 ++
       (_matchesEnum ((JsValue.obj fields).getField "enum") d p).2 ++
       (_matchesPattern rt ((JsValue.obj fields).getField "matches") d p).2 ++
       (_matchesItems rt ((JsValue.obj fields).getField "items") d p).2 ++
       (_matchesProperties rt ((JsValue.obj fields).getField "properties") d p).2) := by
  simp only [_isValid, h, h2, h3, h4, Bool.false_eq_true, if_false,
    Bool.not_false, Bool.not_true, if_true]

set_option maxHeartbeats 1000000

theorem pathBounds (rt : JsValue → String → Bool) :
    (∀ s d p, ∀ e ∈ (_isValid rt s d p).2,
        e.instancePath = "path" ∨ p.length ≤ e.instancePath.length) ∧
    (∀ s d p, ∀ e ∈ (_matchesProperties rt s d p).2,
        e.instancePath = "path" ∨ p.length < e.instancePath.length) ∧
    (∀ f d p, ∀ e ∈ (_propsLoop rt f d p).2,
        e.instancePath = "path" ∨ p.length < e.instancePath.length) ∧
    (∀ s d p, ∀ e ∈ (_matchesItems rt s d p).2,
        e.instancePath = "path" ∨ e.instancePath = p ∨
          p.length < e.instancePath.length) ∧
    (∀ s items p i, ∀ e ∈ (_itemsLoop rt s items p i).2,
        e.instancePath = "path" ∨ p.length < e.instancePath.length) := by
  apply _isValid.mutual_induct rt
  case case1 =>
    intro document path a e he
    simp only [_isValid] at he
    exact Or.inr (le_of_eq (congrArg String.length (matchesType_mem_path _ _ _ e he).symm))
  case case2 =>
    intro document path a e he
    simp only [_isValid] at he
    exact Or.inr (le_of_eq (congrArg String.length (matchesType_mem_path _ _ _ e he).symm))
  case case3 =>
    intro document path fields t hcond err he
    rw [isValid_obj_stop_type rt fields document path hcond] at he
    exact Or.inr (le_of_eq (congrArg String.length (matchesType_mem_path _ _ _ err he).symm))
  case case4 =>
    intro document path fields t hc en hen err he
    simp only [Bool.not_eq_true] at hc
    have hen' : (_matchesEnum ((JsValue.obj fields).getField "enum") document path).1 = false := by
      simpa using hen
    rw [isValid_obj_stop_enum rt fields document path hc hen'] at he
    rcases List.mem_append.mp he with h1 | h2
    · exact Or.inr (le_of_eq (congrArg String.length (matchesType_mem_path _ _ _ err h1).symm))
    · exact Or.inr (le_of_eq (congrArg String.length (matchesEnum_mem_path _ _ _ err h2).symm))
  case case5 =>
    intro document path fields t hc en hen pa hpa err he
    simp only [Bool.not_eq_true] at hc
    have hen' : (_matchesEnum ((JsValue.obj fields).getField "enum") document path).1 = true := by
      simpa using hen
    have hpa' : (_matchesPattern rt ((JsValue.obj fields).getField "matches") document path).1 = false := by
      simpa using hpa
    rw [isValid_obj_stop_pattern rt fields document path hc hen' hpa'] at he
    rcases List.mem_append.mp he with h1 | h2
    · rcases List.mem_append.mp h1 with h3 | h4
      · exact Or.inr (le_of_eq (congrArg String.length (matchesType_mem_path _ _ _ err h3).symm))
      · exact Or.inr (le_of_eq (congrArg String.length (matchesEnum_mem_path _ _ _ err h4).symm))
    · exact Or.inr (le_of_eq (congrArg String.length (matchesPattern_mem_path rt _ _ _ err h2).symm))
  case case6 =>
    intro document path fields t hc en hen pa hpa it hit ih4 err he
    simp only [Bool.not_eq_true] at hc
    have hen' : (_matchesEnum ((JsValue.obj fields).getField "enum") document path).1 = true := by
      simpa using hen
    have hpa' : (_matchesPattern rt ((JsValue.obj fields).getField "matches") document path).1 = true := by
      simpa using hpa
    have hit' : (_matchesItems rt ((JsValue.obj fields).getField "items") document path).1 = false := by
      simpa using hit
    rw [isValid_obj_stop_items rt fields document path hc hen' hpa' hit'] at he
    rcases List.mem_append.mp he with h1 | h2
    · rcases List.mem_append.mp h1 with h3 | h4
      · rcases List.mem_append.mp h3 with h5 | h6
        · exact Or.inr (le_of_eq (congrArg String.length (matchesType_mem_path _ _ _ err h5).symm))
        · exact Or.inr (le_of_eq (congrArg String.length (matchesEnum_mem_path _ _ _ err h6).symm))
      · exact Or.inr (le_of_eq (congrArg String.length (matchesPattern_mem_path rt _ _ _ err h4).symm))
    · rcases ih4 err h2 with hp | hq | hr
      · exact Or.inl hp
      · exact Or.inr (le_of_eq (congrArg String.length hq.symm))
      · exact Or.inr (le_of_lt hr)
  case case7 =>
    intro document path fields t hc en hen pa hpa it hit ih4 ih2 err he
    simp only [Bool.not_eq_true] at hc
    have hen' : (_matchesEnum ((JsValue.obj fields).getField "enum") document path).1 = true := by
      simpa using hen
    have hpa' : (_matchesPattern rt ((JsValue.obj fields).getField "matches") document path).1 = true := by
      simpa using hpa
    have hit' : (_matchesItems rt ((JsValue.obj fields).getField "items") document path).1 = true := by
      simpa using hit
    rw [isValid_obj_final rt fields document path hc hen' hpa' hit'] at he
    rcases List.mem_append.mp he with h1 | h2
    · rcases List.mem_append.mp h1 with h3 | h4
      · rcases List.mem_append.mp h3 with h5 | h6
        · rcases List.mem_append.mp h5 with h7 | h8
          · exact Or.inr (le_of_eq (congrArg String.length (matchesType_mem_path _ _ _ err h7).symm))
          · exact Or.inr (le_of_eq (congrArg String.length (matchesEnum_mem_path _ _ _ err h8).symm))
        · exact Or.inr (le_of_eq (congrArg String.length (matchesPattern_mem_path rt _ _ _ err h6).symm))
      · rcases ih4 err h4 with hp | hq | hr
        · exact Or.inl hp
        · exact Or.inr (le_of_eq (congrArg String.length hq.symm))
        · exact Or.inr (le_of_lt hr)
    · rcases ih2 err h2 with hp | hq
      · exact Or.inl hp
      · exact Or.inr (le_of_lt hq)
  case case8 =>
    intro schema document path h1 h2 h3 e he
    cases schema with
    | str a => exact (h1 a rfl).elim
    | arr a => exact (h2 a rfl).elim
    | obj f => exact (h3 f rfl).elim
    | undefined => simp [_isValid] at he
    | null => simp [_isValid] at he
    | bool b => simp [_isValid] at he
    | num n => simp [_isValid] at he
  case case9 =>
    intro document path e he
    simp [_matchesProperties] at he
  case case10 =>
    intro path a docFields e he
    simp only [_matchesProperties] at he
    exact Or.inr (propsTypeLoop_mem _ _ _ e he)
  case case11 =>
    intro document path a hno e he
    rw [props_guard_eq rt (.str a) document path (by simp [getType]) ?hd] at he
    case hd =>
      cases document
      case obj df => exact (hno df rfl).elim
      all_goals simp [getType]
    simp only [List.mem_singleton] at he
    subst he
    exact Or.inl rfl
  case case12 =>
    intro path a docFields e he
    simp only [_matchesProperties] at he
    exact Or.inr (propsTypeLoop_mem _ _ _ e he)
  case case13 =>
    intro document path a hno e he
    rw [props_guard_eq rt (.arr a) document path (by simp [getType]) ?hd2] at he
    case hd2 =>
      cases document
      case obj df => exact (hno df rfl).elim
      all_goals simp [getType]
    simp only [List.mem_singleton] at he
    subst he
    exact Or.inl rfl
  case case14 =>
    intro path schemaFields docFields ih3 e he
    simp only [_matchesProperties] at he
    exact ih3 e he
  case case15 =>
    intro document path schemaFields hno e he
    rw [props_guard_eq rt (.obj schemaFields) document path (by simp [getType]) ?hd3] at he
    case hd3 =>
      cases document
      case obj df => exact (hno df rfl).elim
      all_goals simp [getType]
    simp only [List.mem_singleton] at he
    subst he
    exact Or.inl rfl
  case case16 =>
    intro schema path docFields h0 h1 h2 h3 e he
    cases schema with
    | undefined => exact (h0 rfl).elim
    | str a => exact (h1 a rfl).elim
    | arr a => exact (h2 a rfl).elim
    | obj f => exact (h3 f rfl).elim
    | null => simp [_matchesProperties] at he
    | bool b => simp [_matchesProperties] at he
    | num n => simp [_matchesProperties] at he
  case case17 =>
    intro schema document path h0 h1 h2 h3 hno e he
    have hs : getType schema ≠ "undefined" := by
      cases schema with
      | undefined => exact (h0 rfl).elim
      | str a => exact (h1 a rfl).elim
      | arr a => exact (h2 a rfl).elim
      | obj f => exact (h3 f rfl).elim
      | null => simp [getType]
      | bool b => simp [getType]
      | num n => simp [getType]
    have hd : getType document ≠ "object" := by
      cases document
      case obj df => exact (hno df rfl).elim
      all_goals simp [getType]
    rw [props_guard_eq rt schema document path hs hd] at he
    simp only [List.mem_singleton] at he
    subst he
    exact Or.inl rfl
  case case18 =>
    intro document path e he
    simp [_propsLoop] at he
  case case19 =>
    intro document path key v rest r hr ih1 ih3 e he
    have hr' : (_isValid rt v (document.getField key) (path ++ "." ++ key)).1 = true := hr
    simp [_propsLoop, hr'] at he
    rcases he with h | h
    · rcases ih1 e h with hp | hq
      · exact Or.inl hp
      · exact Or.inr (lt_of_lt_of_le (path_dot_lt path key) hq)
    · exact ih3 e h
  case case20 =>
    intro document path key v rest r hr ih1 e he
    have hr' : (_isValid rt v (document.getField key) (path ++ "." ++ key)).1 = false := by
      simpa using hr
    simp [_propsLoop, hr'] at he
    rcases ih1 e he with hp | hq
    · exact Or.inl hp
    · exact Or.inr (lt_of_lt_of_le (path_dot_lt path key) hq)
  case case21 =>
    intro schema document path h e he
    rw [_matchesItems.eq_def] at he
    rw [h] at he
    simp at he
  case case22 =>
    intro schema path hnot vals ih5 e he
    have h' : schema.isUndefined = false := by simpa using hnot
    simp only [_matchesItems, h', Bool.false_eq_true, if_false] at he
    rcases ih5 e he with hp | hq
    · exact Or.inl hp
    · exact Or.inr (Or.inr hq)
  case case23 =>
    intro schema document path hnot hno e he
    have h' : schema.isUndefined = false := by simpa using hnot
    cases document
    case arr vals => exact (hno vals rfl).elim
    all_goals
      simp only [_matchesItems, h', Bool.false_eq_true, if_false,
        List.mem_singleton] at he
    all_goals subst he
    all_goals exact Or.inr (Or.inl rfl)
  case case24 =>
    intro schema path index e he
    simp [_itemsLoop] at he
  case case25 =>
    intro schema path index subItem rest r hr ihm ih5 e he
    cases schema with
    | str a =>
        have hr' : (_matchesType (JsValue.str a) subItem
            (path ++ "[" ++ toString index ++ "]")).1 = true := hr
        simp [_itemsLoop, hr'] at he
        rcases he with h | h
        · exact Or.inr (lt_of_lt_of_le (path_idx_lt path index)
            (le_of_eq (congrArg String.length (matchesType_mem_path _ _ _ e h).symm)))
        · exact ih5 e h
    | arr a =>
        have hr' : (_matchesType (JsValue.arr a) subItem
            (path ++ "[" ++ toString index ++ "]")).1 = true := hr
        simp [_itemsLoop, hr'] at he
        rcases he with h | h
        · exact Or.inr (lt_of_lt_of_le (path_idx_lt path index)
            (le_of_eq (congrArg String.length (matchesType_mem_path _ _ _ e h).symm)))
        · exact ih5 e h
    | obj f =>
        have hr' : (_isValid rt (JsValue.obj f) subItem
            (path ++ "[" ++ toString index ++ "]")).1 = true := hr
        simp [_itemsLoop, hr'] at he
        rcases he with h | h
        · rcases ihm e h with hp | hq
          · exact Or.inl hp
          · exact Or.inr (lt_of_lt_of_le (path_idx_lt path index) hq)
        · exact ih5 e h
    | undefined =>
        simp [_itemsLoop] at he
        exact ih5 e he
    | null =>
        simp [_itemsLoop] at he
        exact ih5 e he
    | bool b =>
        simp [_itemsLoop] at he
        exact ih5 e he
    | num n =>
        simp [_itemsLoop] at he
        exact ih5 e he
  case case26 =>
    intro schema path index subItem rest r hr ihm e he
    cases schema with
    | str a =>
        have hr' : (_matchesType (JsValue.str a) subItem
            (path ++ "[" ++ toString index ++ "]")).1 = false := by simpa using hr
        simp [_itemsLoop, hr'] at he
        exact Or.inr (lt_of_lt_of_le (path_idx_lt path index)
          (le_of_eq (congrArg String.length (matchesType_mem_path _ _ _ e he).symm)))
    | arr a =>
        have hr' : (_matchesType (JsValue.arr a) subItem
            (path ++ "[" ++ toString index ++ "]")).1 = false := by simpa using hr
        simp [_itemsLoop, hr'] at he
        exact Or.inr (lt_of_lt_of_le (path_idx_lt path index)
          (le_of_eq (congrArg String.length (matchesType_mem_path _ _ _ e he).symm)))
    | obj f =>
        have hr' : (_isValid rt (JsValue.obj f) subItem
            (path ++ "[" ++ toString index ++ "]")).1 = false := by simpa using hr
        simp [_itemsLoop, hr'] at he
        rcases ihm e he with hp | hq
        · exact Or.inl hp
        · exact Or.inr (lt_of_lt_of_le (path_idx_lt path index) hq)
    | undefined => exact absurd rfl hr
    | null => exact absurd rfl hr
    | bool b => exact absurd rfl hr
    | num n => exact absurd rfl hr

/-- An undefined items value makes the items check pass silently. -/
lemma matchesItems_skip (rt : JsValue → String → Bool) (d : JsValue)
    (p : String) : _matchesItems rt .undefined d p = (true, []) := by
  rw [_matchesItems.eq_def]
  simp [JsValue.isUndefined]

/-- An undefined properties value makes the properties check pass silently. -/
lemma matchesProperties_skip (rt : JsValue → String → Bool) (d : JsValue)
    (p : String) : _matchesProperties rt .undefined d p = (true, []) := by
  simp [_matchesProperties]

/-- The items check contributes at most one record carrying the node's own
path (its non-array guard), and none when it succeeds. -/
lemma items_filter (rt : JsValue → String → Bool) (s d : JsValue) (p : String)
    (hp : p ≠ "path") :
    (((_matchesItems rt s d p).2.filter (fun e => e.instancePath = p)).length ≤ 1) ∧
    ((_matchesItems rt s d p).1 = true →
      (_matchesItems rt s d p).2.filter (fun e => e.instancePath = p) = []) := by
  by_cases hu : s.isUndefined = true
  · rw [_matchesItems.eq_def]
    rw [hu]
    simp
  · have hu' : s.isUndefined = false := by simpa using hu
    cases d with
    | arr vals =>
        rw [_matchesItems.eq_def]
        rw [hu']
        simp only [Bool.false_eq_true, if_false]
        have hnil : (_itemsLoop rt s vals p 0).2.filter
            (fun e => e.instancePath = p) = [] := by
          rw [List.filter_eq_nil_iff]
          intro e he
          rcases (pathBounds rt).2.2.2.2 s vals p 0 e he with h | h
          · simp only [decide_eq_true_eq]
            rw [h]
            exact fun heq => hp heq.symm
          · simp only [decide_eq_true_eq]
            intro heq
            rw [heq] at h
            exact absurd h (lt_irrefl _)
        constructor
        · rw [hnil]
          simp
        · intro
          exact hnil
    | undefined =>
        rw [_matchesItems.eq_def]
        rw [hu']
        simp
    | null =>
        rw [_matchesItems.eq_def]
        rw [hu']
        simp
    | bool b =>
        rw [_matchesItems.eq_def]
        rw [hu']
        simp
    | num n =>
        rw [_matchesItems.eq_def]
        rw [hu']
        simp
    | str t =>
        rw [_matchesItems.eq_def]
        rw [hu']
        simp
    | obj f =>
        rw [_matchesItems.eq_def]
        rw [hu']
        simp

/-- The properties check never contributes a record carrying the node's own
path: its guard record carries the literal "path" and its per-key records
carry strictly longer paths. -/
lemma props_filter (rt : JsValue → String → Bool) (s d : JsValue) (p : String)
    (hp : p ≠ "path") :
    (_matchesProperties rt s d p).2.filter (fun e => e.instancePath = p) = [] := by
  rw [List.filter_eq_nil_iff]
  intro e he
  rcases (pathBounds rt).2.1 s d p e he with h | h
  · simp only [decide_eq_true_eq]
    rw [h]
    exact fun heq => hp heq.symm
  · simp only [decide_eq_true_eq]
    intro heq
    rw [heq] at h
    exact absurd h (lt_irrefl _)

/-- When the descriptor branch does not return right after the type check,
either the type check passed or the failure was forgiven because optional is
truthy and the document is undefined. -/
lemma c1_false_cases (fields : List (String × JsValue)) (d : JsValue) (p : String)
    (h : (!(_matchesType ((JsValue.obj fields).getField "type") d p).1 &&
          (!((JsValue.obj fields).getField "optional").truthy || !d.isUndefined)) = false) :
    (_matchesType ((JsValue.obj fields).getField "type") d p).1 = true ∨
    (((JsValue.obj fields).getField "optional").truthy = true ∧ d = .undefined) := by
  rcases Bool.and_eq_false_iff.mp h with h1 | h2
  · exact Or.inl (by simpa using h1)
  · have hb := Bool.or_eq_false_iff.mp h2
    exact Or.inr ⟨by simpa using hb.1, (isUndefined_iff d).mp (by simpa using hb.2)⟩

/-- Claim C1: validating the schema with type "string" and optional true
against the undefined document does NOT yield a valid result: _matchesType
logs the type error before _isValid consults the optional flag, and the
suppression only affects the boolean return value, so after the validate call
the error collection holds that one type record and isValid is false, while
the recursive _isValid verdict is true. This evaluates the code at the
claim's input and exhibits the divergence. -/
theorem claim1_optional_error_retained :
    (validateDoc rtAlways
        (.obj [("type", .str "string"), ("optional", .bool true)]) .undefined).isValid
      = false ∧
    (validateDoc rtAlways
        (.obj [("type", .str "string"), ("optional", .bool true)]) .undefined).errors
      = [{ keyword := "type", instancePath := "$",
           message := "must be string, but it was undefined" }] ∧
    (_isValid rtAlways
        (.obj [("type", .str "string"), ("optional", .bool true)]) .undefined "$").1
      = true := by
  refine ⟨?_, ?_, ?_⟩ <;>
    simp +decide [validateDoc, JsonValidator.validate, mkValidator,
      JsonValidator.errors, JsonValidator.isValid, rtAlways, _isValid,
      _matchesType, _matchesEnum, _matchesPattern, _matchesItems,
      _matchesProperties, getType, JsValue.getField, getFieldList,
      JsValue.truthy, JsValue.isUndefined, isNullish, jsString, jsJoin, jsStrictEq]

/-- Claim C2 counterexample: a single invocation of the matching engine on an
object descriptor with type "string", optional true and enum [1], applied to
the undefined document, appends TWO error records for the node's own checks
(the suppressed type failure stays logged and the enum check then logs a
second record), refuting "at most one error record for that node's own
checks"; the schema has no items or properties, so no recursive call is
involved, and both records carry the node's own instancePath. -/
theorem claim2_two_own_errors :
    (_isValid rtAlways
      (.obj [("type", .str "string"), ("optional", .bool true),
             ("enum", .arr [.num 1])]) .undefined "$").2 =
    [{ keyword := "type", instancePath := "$",
       message := "must be string, but it was undefined" },
     { keyword := "value", instancePath := "$",
       message := "value must be in enum 1, but it was undefined" }] := by
  simp +decide [rtAlways, _isValid, _matchesType, _matchesEnum, _matchesPattern,
    _matchesItems, _matchesProperties, getType, JsValue.getField, getFieldList,
    JsValue.truthy, JsValue.isUndefined, isNullish, jsString, jsJoin, jsStrictEq]

/-- Claim C2 (amended): for every schema node classifying as object and every
document, one invocation of _isValid appends at most TWO error records
carrying the node's own instancePath, and at most one unless the type check's
failure is forgiven by a truthy optional flag on an undefined document (in
that case the logged type error persists and evaluation continues, so one
later check may log a second record). The five checks still run in the fixed
order type, enum, pattern, items, properties, stopping at the first failing
check apart from that forgiven type failure; the properties guard record
carries the literal instancePath "path" rather than the node's path. -/
theorem claim2_own_check_logs_bounded (rt : JsValue → String → Bool)
    (s d : JsValue) (p : String)
    (hobj : getType s = "object") (hp : p ≠ "path") :
    (((_isValid rt s d p).2.filter (fun e => e.instancePath = p)).length ≤ 2) ∧
    (¬((s.getField "optional").truthy = true ∧ d = .undefined) →
      ((_isValid rt s d p).2.filter (fun e => e.instancePath = p)).length ≤ 1) := by
  cases s with
  | undefined => simp [getType] at hobj
  | null => simp [getType] at hobj
  | bool b => simp [getType] at hobj
  | num n => simp [getType] at hobj
  | str a => simp [getType] at hobj
  | arr a => simp [getType] at hobj
  | obj fields =>
  have ht_len : (_matchesType ((JsValue.obj fields).getField "type") d p).2.length ≤ 1 := by
    rcases matchesType_shape ((JsValue.obj fields).getField "type") d p with h | ⟨m, h⟩ <;>
      simp [h]
  have he_len : (_matchesEnum ((JsValue.obj fields).getField "enum") d p).2.length ≤ 1 := by
    rcases matchesEnum_shape ((JsValue.obj fields).getField "enum") d p with h | ⟨m, h⟩ <;>
      simp [h]
  have hpa_len : (_matchesPattern rt ((JsValue.obj fields).getField "matches") d p).2.length ≤ 1 := by
    rcases matchesPattern_shape rt ((JsValue.obj fields).getField "matches") d p with h | ⟨m, h⟩ <;>
      simp [h]
  have htf : ((_matchesType ((JsValue.obj fields).getField "type") d p).2.filter
      (fun e => e.instancePath = p)).length ≤ 1 :=
    le_trans (List.length_filter_le _ _) ht_len
  have hef : ((_matchesEnum ((JsValue.obj fields).getField "enum") d p).2.filter
      (fun e => e.instancePath = p)).length ≤ 1 :=
    le_trans (List.length_filter_le _ _) he_len
  have hpaf : ((_matchesPattern rt ((JsValue.obj fields).getField "matches") d p).2.filter
      (fun e => e.instancePath = p)).length ≤ 1 :=
    le_trans (List.length_filter_le _ _) hpa_len
  have hitf := items_filter rt ((JsValue.obj fields).getField "items") d p hp
  have hprf := props_filter rt ((JsValue.obj fields).getField "properties") d p hp
  by_cases hc1 : (!(_matchesType ((JsValue.obj fields).getField "type") d p).1 &&
      (!((JsValue.obj fields).getField "optional").truthy || !d.isUndefined)) = true
  · rw [isValid_obj_stop_type rt fields d p hc1]
    exact ⟨le_trans htf (by omega), fun _ => htf⟩
  · have hc1' : (!(_matchesType ((JsValue.obj fields).getField "type") d p).1 &&
        (!((JsValue.obj fields).getField "optional").truthy || !d.isUndefined)) = false := by
      simpa using hc1
    have ht0 : ¬(((JsValue.obj fields).getField "optional").truthy = true ∧ d = .undefined) →
        (_matchesType ((JsValue.obj fields).getField "type") d p).2 = [] := by
      intro hno
      rcases c1_false_cases fields d p hc1' with h | h
      · exact matchesType_true_nil _ _ _ h
      · exact absurd h hno
    by_cases h2 : (_matchesEnum ((JsValue.obj fields).getField "enum") d p).1 = false
    · rw [isValid_obj_stop_enum rt fields d p hc1' h2]
      constructor
      · simp only [List.filter_append, List.length_append]
        omega
      · intro hno
        simp only [List.filter_append, List.length_append, ht0 hno,
          List.filter_nil, List.length_nil]
        omega
    · have h2' : (_matchesEnum ((JsValue.obj fields).getField "enum") d p).1 = true := by
        simpa using h2
      have he0 : (_matchesEnum ((JsValue.obj fields).getField "enum") d p).2 = [] :=
        matchesEnum_true_nil _ _ _ h2'
      by_cases h3 : (_matchesPattern rt ((JsValue.obj fields).getField "matches") d p).1 = false
      · rw [isValid_obj_stop_pattern rt fields d p hc1' h2' h3]
        constructor
        · simp only [List.filter_append, List.length_append, he0, List.filter_nil,
            List.length_nil]
          omega
        · intro hno
          simp only [List.filter_append, List.length_append, he0, ht0 hno,
            List.filter_nil, List.length_nil]
          omega
      · have h3' : (_matchesPattern rt ((JsValue.obj fields).getField "matches") d p).1 = true := by
          simpa using h3
        have hpa0 : (_matchesPattern rt ((JsValue.obj fields).getField "matches") d p).2 = [] :=
          matchesPattern_true_nil rt _ _ _ h3'
        by_cases h4 : (_matchesItems rt ((JsValue.obj fields).getField "items") d p).1 = false
        · rw [isValid_obj_stop_items rt fields d p hc1' h2' h3' h4]
          constructor
          · simp only [List.filter_append, List.length_append, he0, hpa0,
              List.filter_nil, List.length_nil]
            omega
          · intro hno
            simp only [List.filter_append, List.length_append, he0, hpa0, ht0 hno,
              List.filter_nil, List.length_nil]
            omega
        · have h4' : (_matchesItems rt ((JsValue.obj fields).getField "items") d p).1 = true := by
            simpa using h4
          rw [isValid_obj_final rt fields d p hc1' h2' h3' h4']
          constructor
          · simp only [List.filter_append, List.length_append, he0, hpa0,
              hitf.2 h4', hprf, List.filter_nil, List.length_nil]
            omega
          · intro hno
            simp only [List.filter_append, List.length_append, he0, hpa0, ht0 hno,
              hitf.2 h4', hprf, List.filter_nil, List.length_nil]
            omega

/-- Claim C2 witness: the amended bound instantiated at a concrete descriptor,
document and path. -/
theorem claim2_own_check_logs_bounded_witness :
    (((_isValid rtAlways (.obj [("type", .str "string")]) (.num 5) "$").2.filter
        (fun e => e.instancePath = "$")).length ≤ 2) ∧
    (¬(((JsValue.obj [("type", .str "string")]).getField "optional").truthy = true ∧
        JsValue.num 5 = .undefined) →
      ((_isValid rtAlways (.obj [("type", .str "string")]) (.num 5) "$").2.filter
        (fun e => e.instancePath = "$")).length ≤ 1) :=
  claim2_own_check_logs_bounded rtAlways (.obj [("type", .str "string")])
    (.num 5) "$" (by decide) (by decide)

/-- Claim C3 counterexample: for the declared type "number" and the document
true, the logged message is "must be string, but it was boolean": it names the
classified type of the declaration (the literal word "string") and the
document's classified type, but the declared type "number" occurs nowhere in
it, refuting "a message naming the declared allowed type(s)" for single-string
declarations. -/
theorem claim3_message_ignores_declared_type :
    (_matchesType (.str "number") (.bool true) "$").2 =
      [{ keyword := "type", instancePath := "$",
         message := "must be string, but it was boolean" }] ∧
    strHas "must be string, but it was boolean" "number" = false := by
  constructor
  · simp +decide [_matchesType, getType]
  · decide

/-- Claim C3 (amended): every type-check failure logs exactly one record with
keyword "type" at the call's path; for a single-string declaration the message
is "must be string, but it was" followed by the document's classified type —
the interpolated name is the classified type of the declaration itself, which
is always the word "string", not the declared type's value; for a sequence
declaration the message names the members joined by " | " and the document's
classified type. -/
theorem claim3_type_error_message (s d : JsValue) (p : String)
    (h : (_matchesType s d p).1 = false) :
    ∃ m, (_matchesType s d p).2 =
        [{ keyword := "type", instancePath := p, message := m }] ∧
      ((∃ t, s = .str t ∧ m = "must be string, but it was " ++ getType d) ∨
       (∃ l, s = .arr l ∧
         m = "must be " ++ jsJoin " | " l ++ ", but it was " ++ getType d)) := by
  cases s with
  | str t =>
      by_cases hc : (getType d != t) = true
      · exact ⟨"must be string, but it was " ++ getType d,
          by simp [_matchesType, hc], Or.inl ⟨t, rfl, rfl⟩⟩
      · simp [_matchesType, hc] at h
  | arr l =>
      by_cases hc : (l.any fun v => jsStrictEq v (.str (getType d))) = true
      · simp [_matchesType, hc] at h
      · exact ⟨"must be " ++ jsJoin " | " l ++ ", but it was " ++ getType d,
          by simp [_matchesType, hc], Or.inr ⟨l, rfl, rfl⟩⟩
  | undefined => simp [_matchesType] at h
  | null => simp [_matchesType] at h
  | bool b => simp [_matchesType] at h
  | num n => simp [_matchesType] at h
  | obj fields => simp [_matchesType] at h

/-- Claim C3 witness: the amended statement instantiated at the declared type
"number" against the document true. -/
theorem claim3_type_error_message_witness :
    ∃ m, (_matchesType (.str "number") (.bool true) "$").2 =
        [{ keyword := "type", instancePath := "$", message := m }] ∧
      ((∃ t, JsValue.str "number" = .str t ∧
          m = "must be string, but it was " ++ getType (.bool true)) ∨
       (∃ l, JsValue.str "number" = .arr l ∧
          m = "must be " ++ jsJoin " | " l ++ ", but it was " ++
            getType (.bool true))) :=
  claim3_type_error_message (.str "number") (.bool true) "$" (by decide)

/-- Claim C4: checking the items schema with type "number" against an array
starting 1, 2, "x" halts at index 2: whatever elements follow "x", the result
is invalid with exactly the one type record at path $[2], so elements after
the first failing index are never consulted and the per-element paths carry
the ascending bracketed indices. -/
theorem claim4_items_short_circuit (rt : JsValue → String → Bool)
    (tail : List JsValue) :
    (validateDoc rt
        (.obj [("type", .str "array"),
               ("items", .obj [("type", .str "number")])])
        (.arr (.num 1 :: .num 2 :: .str "x" :: tail))).isValid = false ∧
    (validateDoc rt
        (.obj [("type", .str "array"),
               ("items", .obj [("type", .str "number")])])
        (.arr (.num 1 :: .num 2 :: .str "x" :: tail))).errors =
      [{ keyword := "type", instancePath := "$[2]",
         message := "must be string, but it was string" }] := by
  constructor <;>
    simp +decide [validateDoc, JsonValidator.validate, mkValidator,
      JsonValidator.errors, JsonValidator.isValid, _isValid, _matchesType,
      _matchesEnum, _matchesPattern, _matchesItems, _itemsLoop,
      _matchesProperties, getType, JsValue.getField, getFieldList,
      JsValue.truthy, JsValue.isUndefined, isNullish, jsString, jsJoin, jsStrictEq]

/-- Claim C5: for every defined properties value and every document that does
not classify as object, the properties check fails and logs exactly one
schema-keyword record whose instancePath is the literal string "path" rather
than the computed path. -/
theorem claim5_properties_guard_hardcoded_path (rt : JsValue → String → Bool)
    (props d : JsValue) (p : String) (hs : getType props ≠ "undefined")
    (hd : getType d ≠ "object") :
    _matchesProperties rt props d p =
      (false, [{ keyword := "schema", instancePath := "path",
                 message := "must be an object, but schema defines properties." }]) :=
  props_guard_eq rt props d p hs hd

/-- Claim C5 witness: the guard instantiated at a string properties value, a
number document and a non-trivial path. -/
theorem claim5_properties_guard_hardcoded_path_witness :
    _matchesProperties rtAlways (.str "number") (.num 5) "$.q" =
      (false, [{ keyword := "schema", instancePath := "path",
                 message := "must be an object, but schema defines properties." }]) :=
  claim5_properties_guard_hardcoded_path rtAlways (.str "number") (.num 5) "$.q"
    (by decide) (by decide)

/-- Claim C6: the pattern check reads the regular-expression source from the
descriptor field named matches, not from the field named pattern: a descriptor
whose only field is pattern validates any document as (true, []) for every
regular-expression oracle, while a descriptor with a defined matches field
coerces the document to a string, tests it with the oracle built from the
matches value, and logs a value-keyword record on failure. -/
theorem claim6_pattern_reads_matches_field (rt : JsValue → String → Bool)
    (d : JsValue) (p : String) (pat m : JsValue) (hm : m ≠ .undefined) :
    _isValid rt (.obj [("pattern", pat)]) d p = (true, []) ∧
    _isValid rt (.obj [("matches", m)]) d p =
      (if rt m (jsString d) then (true, [])
       else (false, [{ keyword := "value", instancePath := p,
                       message := "value " ++ jsString d ++ " did not match  " ++
                         jsString m }])) := by
  constructor
  · simp +decide [_isValid, _matchesType, _matchesEnum, _matchesPattern,
      matchesItems_skip, matchesProperties_skip, getType, JsValue.getField,
      getFieldList, JsValue.truthy, JsValue.isUndefined]
  · cases m with
    | undefined => exact absurd rfl hm
    | null =>
        by_cases hr : rt .null (jsString d) = true <;>
          simp +decide [_isValid, _matchesType, _matchesEnum, _matchesPattern,
            matchesItems_skip, matchesProperties_skip, getType,
            JsValue.getField, getFieldList, JsValue.truthy, JsValue.isUndefined, hr]
    | bool b =>
        by_cases hr : rt (.bool b) (jsString d) = true <;>
          simp +decide [_isValid, _matchesType, _matchesEnum, _matchesPattern,
            matchesItems_skip, matchesProperties_skip, getType,
            JsValue.getField, getFieldList, JsValue.truthy, JsValue.isUndefined, hr]
    | num n =>
        by_cases hr : rt (.num n) (jsString d) = true <;>
          simp +decide [_isValid, _matchesType, _matchesEnum, _matchesPattern,
            matchesItems_skip, matchesProperties_skip, getType,
            JsValue.getField, getFieldList, JsValue.truthy, JsValue.isUndefined, hr]
    | str t =>
        by_cases hr : rt (.str t) (jsString d) = true <;>
          simp +decide [_isValid, _matchesType, _matchesEnum, _matchesPattern,
            matchesItems_skip, matchesProperties_skip, getType,
            JsValue.getField, getFieldList, JsValue.truthy, JsValue.isUndefined, hr]
    | arr l =>
        by_cases hr : rt (.arr l) (jsString d) = true <;>
          simp +decide [_isValid, _matchesType, _matchesEnum, _matchesPattern,
            matchesItems_skip, matchesProperties_skip, getType,
            JsValue.getField, getFieldList, JsValue.truthy, JsValue.isUndefined, hr]
    | obj f =>
        by_cases hr : rt (.obj f) (jsString d) = true <;>
          simp +decide [_isValid, _matchesType, _matchesEnum, _matchesPattern,
            matchesItems_skip, matchesProperties_skip, getType,
            JsValue.getField, getFieldList, JsValue.truthy, JsValue.isUndefined, hr]

/-- Claim C6 witness: the field-name behaviour instantiated with the
everything-accepting oracle, a string in both fields and a number document. -/
theorem claim6_pattern_reads_matches_field_witness :
    _isValid rtAlways (.obj [("pattern", .str "q")]) (.num 5) "$" = (true, []) ∧
    _isValid rtAlways (.obj [("matches", .str "q")]) (.num 5) "$" =
      (if rtAlways (.str "q") (jsString (.num 5)) then (true, [])
       else (false, [{ keyword := "value", instancePath := "$",
                       message := "value " ++ jsString (.num 5) ++
                         " did not match  " ++ jsString (.str "q") }])) :=
  claim6_pattern_reads_matches_field rtAlways (.num 5) "$" (.str "q") (.str "q")
    (fun h => JsValue.noConfusion h)

/-- Claim C7: under the properties descriptor mapping key a to a number
sub-schema, every document object LACKING key a is validated with document.a
read as undefined, which fails the sub-schema's type check: the result is
invalid with exactly one type record at path $.a. This covers the empty
object in particular. -/
theorem claim7_missing_key_validated_as_undefined (rt : JsValue → String → Bool)
    (docFields : List (String × JsValue))
    (h : getFieldList docFields "a" = .undefined) :
    (validateDoc rt
        (.obj [("type", .str "object"),
               ("properties", .obj [("a", .obj [("type", .str "number")])])])
        (.obj docFields)).isValid = false ∧
    (validateDoc rt
        (.obj [("type", .str "object"),
               ("properties", .obj [("a", .obj [("type", .str "number")])])])
        (.obj docFields)).errors =
      [{ keyword := "type", instancePath := "$.a",
         message := "must be string, but it was undefined" }] := by
  constructor <;>
    simp +decide [validateDoc, JsonValidator.validate, mkValidator,
      JsonValidator.errors, JsonValidator.isValid, _isValid, _matchesType,
      _matchesEnum, _matchesPattern, _matchesItems, _matchesProperties,
      _propsLoop, matchesItems_skip, matchesProperties_skip, getType,
      JsValue.getField, getFieldList, JsValue.truthy, JsValue.isUndefined,
      isNullish, jsString, jsJoin, jsStrictEq, h]

/-- Claim C7 witness: the empty document object. -/
theorem claim7_missing_key_validated_as_undefined_witness :
    (validateDoc rtAlways
        (.obj [("type", .str "object"),
               ("properties", .obj [("a", .obj [("type", .str "number")])])])
        (.obj [])).isValid = false ∧
    (validateDoc rtAlways
        (.obj [("type", .str "object"),
               ("properties", .obj [("a", .obj [("type", .str "number")])])])
        (.obj [])).errors =
      [{ keyword := "type", instancePath := "$.a",
         message := "must be string, but it was undefined" }] :=
  claim7_missing_key_validated_as_undefined rtAlways [] rfl

/-- Claim C8: validate is idempotent — the matching engine never reads the
error collection it appends to, so validating the same document twice on the
same instance yields the same error collection and the same isValid verdict
as validating it once. -/
theorem claim8_validate_idempotent (rt : JsValue → String → Bool)
    (v : JsonValidator) (d : JsValue) :
    (JsonValidator.validate rt (JsonValidator.validate rt v d) d).errors =
      (JsonValidator.validate rt v d).errors ∧
    (JsonValidator.validate rt (JsonValidator.validate rt v d) d).isValid =
      (JsonValidator.validate rt v d).isValid := by
  constructor <;> rfl

/-- Claim C9: fail-open — a schema node classifying as neither string, array
nor object (undefined, null, a boolean or a number) makes the matching engine
return true with no error records, for every document. -/
theorem claim9_fail_open (rt : JsValue → String → Bool) (s d : JsValue)
    (p : String) (h1 : getType s ≠ "string") (h2 : getType s ≠ "array")
    (h3 : getType s ≠ "object") :
    _isValid rt s d p = (true, []) := by
  cases s with
  | str a => exact absurd rfl h1
  | arr a => exact absurd rfl h2
  | obj f => exact absurd rfl h3
  | undefined => simp [_isValid]
  | null => simp [_isValid]
  | bool b => simp [_isValid]
  | num n => simp [_isValid]

/-- Claim C9 witness: the number schema node 3 accepts a string document. -/
theorem claim9_fail_open_witness :
    _isValid rtAlways (.num 3) (.str "x") "$" = (true, []) :=
  claim9_fail_open rtAlways (.num 3) (.str "x") "$" (by decide) (by decide)
    (by decide)

/-- Claim C10: the declared type tag "integer" is unsatisfiable — the type
classifier never returns "integer" for any runtime value, so validating any
document against the direct type specifier "integer", or against the
descriptor with type "integer", fails the type check and logs a type-keyword
record naming the document's actual classified type. -/
theorem claim10_integer_never_matches (rt : JsValue → String → Bool)
    (d : JsValue) (p : String) :
    getType d ≠ "integer" ∧
    _isValid rt (.str "integer") d p =
      (false, [{ keyword := "type", instancePath := p,
                 message := "must be string, but it was " ++ getType d }]) ∧
    _isValid rt (.obj [("type", .str "integer")]) d p =
      (false, [{ keyword := "type", instancePath := p,
                 message := "must be string, but it was " ++ getType d }]) := by
  refine ⟨?_, ?_, ?_⟩ <;> cases d <;>
    simp +decide [_isValid, _matchesType, _matchesEnum, _matchesPattern,
      matchesItems_skip, matchesProperties_skip, getType, JsValue.getField,
      getFieldList, JsValue.truthy, JsValue.isUndefined]
